import Mathlib

/-!
Shallow embedding of `rasterizer.go` (package `rasterizer`).

Machine integers (`int`) are modelled as `ℤ`; `float32` values are modelled
as exact rationals `ℚ` (float32 rounding is not modelled).  The Go `int(f)`
conversion truncates toward zero, modelled by `ftrunc`.  The pixel-shader
callback is modelled by returning the list of invocation tuples
`(x, y, u, v)` in call order.  Division is passed in as a parameter `fdiv`
so that guard structure around divisions can be stated as a theorem; the
concrete rasterizer instantiates `fdiv` with rational division `qdiv`.
-/

attribute [local semireducible] Rat.add Rat.sub Rat.mul Rat.inv

/-- A vertex of the triangle: integer screen coordinates and (float32)
texture coordinates, as passed to `Rasterize`. -/
structure Vtx where
  x : ℤ
  y : ℤ
  u : ℚ
  v : ℚ
deriving DecidableEq, Repr

/-- One shader invocation `ps(x, y, pu, pv)`. -/
abbrev Invo := ℤ × ℤ × ℚ × ℚ

/-- An edge-gradient triple `(dxdy, dxdu, dxdv)`: rate of change of x, u, v
per unit y. -/
structure Grad where
  gx : ℚ
  gu : ℚ
  gv : ℚ
deriving DecidableEq, Repr

/-- The running span state: start `(sdx, sdu, sdv)` and end `(edx, edu, edv)`. -/
structure Span where
  sdx : ℚ
  sdu : ℚ
  sdv : ℚ
  edx : ℚ
  edu : ℚ
  edv : ℚ
deriving DecidableEq, Repr

/-- The Go `int(f)` conversion on float32: truncation toward zero.
`Int` division `/` in Lean truncates toward zero, so `num / den` is exact. -/
def ftrunc (q : ℚ) : ℤ := Int.tdiv q.num (q.den : ℤ)

/-- Plain rational division; stands for the float32 `/`. -/
def qdiv (a b : ℚ) : ℚ := a / b

/-- First conditional swap of `multiSwap`: swap vertices 1 and 0 when
`*y1 < *y0` (x, y, u, v all swapped together). -/
def swap01 (t : Vtx × Vtx × Vtx) : Vtx × Vtx × Vtx :=
  if t.2.1.y < t.1.y then (t.2.1, t.1, t.2.2) else t

/-- Second conditional swap of `multiSwap`: swap vertices 2 and 0 when
`*y2 < *y0`. -/
def swap02 (t : Vtx × Vtx × Vtx) : Vtx × Vtx × Vtx :=
  if t.2.2.y < t.1.y then (t.2.2, t.2.1, t.1) else t

/-- Third conditional swap of `multiSwap`: swap vertices 2 and 1 when
`*y1 < *y2`. -/
def swap12 (t : Vtx × Vtx × Vtx) : Vtx × Vtx × Vtx :=
  if t.2.1.y < t.2.2.y then (t.1, t.2.2, t.2.1) else t

/-- The `multiSwap` function from the source: the three pairwise conditional
swaps in their exact order. -/
def multiSwap (a b c : Vtx) : Vtx × Vtx × Vtx :=
  swap12 (swap02 (swap01 (a, b, c)))

/-- The guarded gradient division: `if d != 0 { g /= float32(d) }`,
where `d` is the integer Δy of the edge. -/
def gdivGuard (fdiv : ℚ → ℚ → ℚ) (g : Grad) (d : ℤ) : Grad :=
  if d ≠ 0 then ⟨fdiv g.gx (d : ℚ), fdiv g.gu (d : ℚ), fdiv g.gv (d : ℚ)⟩ else g

/-- Raw first top-half gradient triple (edge from vertex 0 to vertex 2):
`dxdy1 = float32(x2 - x0)`, `dxdu1 = u2 - u0`, `dxdv1 = v2 - v0`. -/
def rawGrad1 (a c : Vtx) : Grad :=
  ⟨((c.x - a.x : ℤ) : ℚ), c.u - a.u, c.v - a.v⟩

/-- Raw second top-half gradient triple (edge from vertex 0 to vertex 1),
exactly as the source writes it: `dxdy2 = float32(x1 - x0)`,
`dxdu2 = u1 - v0` (sic: the source subtracts `v0`, not `u0`),
`dxdv2 = v1 - v0`. -/
def rawGrad2 (a b : Vtx) : Grad :=
  ⟨((b.x - a.x : ℤ) : ℚ), b.u - a.v, b.v - a.v⟩

/-- First top-half gradient after the `y2-y0 != 0` guard and division. -/
def grad1 (fdiv : ℚ → ℚ → ℚ) (a c : Vtx) : Grad :=
  gdivGuard fdiv (rawGrad1 a c) (c.y - a.y)

/-- Second top-half gradient after the `y1-y0 != 0` guard and division. -/
def grad2 (fdiv : ℚ → ℚ → ℚ) (a b : Vtx) : Grad :=
  gdivGuard fdiv (rawGrad2 a b) (b.y - a.y)

/-- The bottom-half replacement gradient (edge from vertex 2 to vertex 1):
`(x1-x2, u1-u2, v1-v2)`, divided by `y1-y2` when that is non-zero. -/
def grad3 (fdiv : ℚ → ℚ → ℚ) (c b : Vtx) : Grad :=
  gdivGuard fdiv ⟨((b.x - c.x : ℤ) : ℚ), b.u - c.u, b.v - c.v⟩ (b.y - c.y)

/-- Left/right classification: the gradient with the smaller `dxdy` becomes
the left set, the other the right set (`if dxdy1 < dxdy2`). -/
def classify (g1 g2 : Grad) : Grad × Grad :=
  if g1.gx < g2.gx then (g1, g2) else (g2, g1)

/-- The per-pixel delta: divided by `edx - sdx` only when that is non-zero,
otherwise kept at the raw numerator. -/
def pdelta (fdiv : ℚ → ℚ → ℚ) (num den : ℚ) : ℚ :=
  if den ≠ 0 then fdiv num den else num

/-- The inner x loop: `for x := int(sdx); x <= int(edx); x++`, unrolled with
its iteration count as fuel.  Each iteration invokes the shader at
`(x, y, pu, pv)` then advances `pu += pDeltaU`, `pv += pDeltaV`. -/
def scanX : ℕ → ℤ → ℤ → ℚ → ℚ → ℚ → ℚ → List Invo
  | 0, _, _, _, _, _, _ => []
  | n + 1, x, y, pu, pv, dU, dV =>
      (x, y, pu, pv) :: scanX n (x + 1) y (pu + dU) (pv + dV) dU dV

/-- One scanline at row `y`: compute the guarded per-pixel deltas, start
`pu`/`pv` at the span start, and walk x from `int(sdx)` to `int(edx)`. -/
def scanline (fdiv : ℚ → ℚ → ℚ) (y : ℤ) (s : Span) : List Invo :=
  scanX (ftrunc s.edx - ftrunc s.sdx + 1).toNat (ftrunc s.sdx) y s.sdu s.sdv
    (pdelta fdiv (s.edu - s.sdu) (s.edx - s.sdx))
    (pdelta fdiv (s.edv - s.sdv) (s.edx - s.sdx))

/-- Post-scanline advance: `sdx += dxldy; sdu += dxldu; sdv += dxldv` and
`edx += dxrdy; edu += dxrdu; edv += dxrdv`. -/
def advance (s : Span) (L R : Grad) : Span :=
  ⟨s.sdx + L.gx, s.sdu + L.gu, s.sdv + L.gv,
   s.edx + R.gx, s.edu + R.gu, s.edv + R.gv⟩

/-- A half-triangle scan loop with its iteration count as fuel: starting at
row `y`, each iteration emits one scanline then advances the span by the
left and right gradients.  Returns the invocations and the final span. -/
def scanHalf (fdiv : ℚ → ℚ → ℚ) : ℕ → ℤ → Span → Grad → Grad → List Invo × Span
  | 0, _, s, _, _ => ([], s)
  | n + 1, y, s, l, r =>
      let rest := scanHalf fdiv n (y + 1) (advance s l r) l r
      (scanline fdiv y s ++ rest.1, rest.2)

/-- The initial span: start and end both at the `(x, u, v)` of vertex 0. -/
def initSpan (a : Vtx) : Span :=
  ⟨(a.x : ℚ), a.u, a.v, (a.x : ℚ), a.u, a.v⟩

/-- The top-half scan of `Rasterize` on already-sorted vertices `a, b, c`
(slots 0, 1, 2): `for y := y0; y <= y2; y++`, i.e. `y2 - y0 + 1`
iterations. -/
def topPart (fdiv : ℚ → ℚ → ℚ) (a b c : Vtx) : List Invo × Span :=
  scanHalf fdiv (c.y - a.y + 1).toNat a.y (initSpan a)
    (classify (grad1 fdiv a c) (grad2 fdiv a b)).1
    (classify (grad1 fdiv a c) (grad2 fdiv a b)).2

/-- The bottom-half setup of `Rasterize`: under `dxdy1 < dxdy2` the left
gradient is replaced by the vertex-2-to-vertex-1 gradient and the span
start is reset to the `(x, u, v)` of vertex 2; otherwise the right gradient
is replaced and the span end is reset.  Returns (left, right, span). -/
def bottomSetup (fdiv : ℚ → ℚ → ℚ) (g1 g2 l r : Grad) (s : Span) (b c : Vtx) :
    Grad × Grad × Span :=
  if g1.gx < g2.gx then
    (grad3 fdiv c b, r, ⟨(c.x : ℚ), c.u, c.v, s.edx, s.edu, s.edv⟩)
  else
    (l, grad3 fdiv c b, ⟨s.sdx, s.sdu, s.sdv, (c.x : ℚ), c.u, c.v⟩)

/-- The bottom-half scan of `Rasterize` on sorted vertices:
`for y := y2; y <= y1; y++` after the bottom-half setup. -/
def botPart (fdiv : ℚ → ℚ → ℚ) (a b c : Vtx) : List Invo :=
  (scanHalf fdiv (b.y - c.y + 1).toNat c.y
    (bottomSetup fdiv (grad1 fdiv a c) (grad2 fdiv a b)
      (classify (grad1 fdiv a c) (grad2 fdiv a b)).1
      (classify (grad1 fdiv a c) (grad2 fdiv a b)).2
      (topPart fdiv a b c).2 b c).2.2
    (bottomSetup fdiv (grad1 fdiv a c) (grad2 fdiv a b)
      (classify (grad1 fdiv a c) (grad2 fdiv a b)).1
      (classify (grad1 fdiv a c) (grad2 fdiv a b)).2
      (topPart fdiv a b c).2 b c).1
    (bottomSetup fdiv (grad1 fdiv a c) (grad2 fdiv a b)
      (classify (grad1 fdiv a c) (grad2 fdiv a b)).1
      (classify (grad1 fdiv a c) (grad2 fdiv a b)).2
      (topPart fdiv a b c).2 b c).2.1).1

/-- The body of `Rasterize` after the sort: top half then bottom half. -/
def rasterizeSortedV (fdiv : ℚ → ℚ → ℚ) (a b c : Vtx) : List Invo :=
  (topPart fdiv a b c).1 ++ botPart fdiv a b c

/-- The body of `Rasterize` with an explicit division function: sort the vertices with
`multiSwap`, then scan both halves. -/
def rasterizeGenV (fdiv : ℚ → ℚ → ℚ) (a b c : Vtx) : List Invo :=
  rasterizeSortedV fdiv (multiSwap a b c).1 (multiSwap a b c).2.1
    (multiSwap a b c).2.2

/-- The function `Rasterize` on three vertices, returning the shader-invocation list. -/
def rasterizeV (a b c : Vtx) : List Invo := rasterizeGenV qdiv a b c

/-- The function `Rasterize` with the scalar argument list of the source. -/
def Rasterize (x0 y0 x1 y1 x2 y2 : ℤ) (u0 v0 u1 v1 u2 v2 : ℚ) : List Invo :=
  rasterizeV ⟨x0, y0, u0, v0⟩ ⟨x1, y1, u1, v1⟩ ⟨x2, y2, u2, v2⟩

/-- The texel coordinate computed by the shader returned from
`NewDefaultShader`: truncate `u*maxX` and `v*maxY` to int, then clamp via
the two if-chains of the source. -/
def defaultShaderTexel (maxX maxY : ℤ) (u v : ℚ) : ℤ × ℤ :=
  (let tx := ftrunc (u * (maxX : ℚ));
   if tx > maxX then maxX else if tx < 0 then 0 else tx,
   let ty := ftrunc (v * (maxY : ℚ));
   if ty > maxY then maxY else if ty < 0 then 0 else ty)

/-- The effect of one default-shader invocation: the target coordinate
written and the texel coordinate sampled (`target.Set(x, y, texture.At(tx, ty))`). -/
def defaultShaderWrite (maxX maxY x y : ℤ) (u v : ℚ) : (ℤ × ℤ) × (ℤ × ℤ) :=
  ((x, y), defaultShaderTexel maxX maxY u v)

/-- Twice the signed area test: cross product of `(a - o)` and `(b - o)`. -/
def cross (o a b : ℤ × ℤ) : ℤ :=
  (a.1 - o.1) * (b.2 - o.2) - (a.2 - o.2) * (b.1 - o.1)

/-- A point lies strictly inside the triangle `p0 p1 p2` when it is on the
same strict side of all three edges. -/
def strictlyInside (p0 p1 p2 q : ℤ × ℤ) : Prop :=
  (0 < cross p0 p1 q ∧ 0 < cross p1 p2 q ∧ 0 < cross p2 p0 q) ∨
  (cross p0 p1 q < 0 ∧ cross p1 p2 q < 0 ∧ cross p2 p0 q < 0)

instance (p0 p1 p2 q : ℤ × ℤ) : Decidable (strictlyInside p0 p1 p2 q) := by
  unfold strictlyInside; infer_instance

/-- Number of shader invocations landing on pixel `(px, py)`. -/
def pixCount (px py : ℤ) (l : List Invo) : ℕ :=
  (l.map (fun i => (i.1, i.2.1))).count (px, py)

/-- Modelled from the spec (step 2 of §4.2): the second top-half gradient
triple as the spec states it, `((x1-x0)/(y1-y0), (u1-u0)/(y1-y0),
(v1-v0)/(y1-y0))` with the same Δy guard.  Used only to compare against
the `grad2` of the source. -/
def grad2Spec (a b : Vtx) : Grad :=
  gdivGuard qdiv ⟨((b.x - a.x : ℤ) : ℚ), b.u - a.u, b.v - a.v⟩ (b.y - a.y)

/-! ### Helper lemmas -/

theorem ftrunc_intCast (n : ℤ) : ftrunc (n : ℚ) = n := by
  rw [ftrunc, Rat.num_intCast, Rat.den_intCast]
  cases n <;> simp [Int.tdiv, Int.negSucc_eq]

theorem multiSwap_sorted (a b c : Vtx) :
    (multiSwap a b c).1.y ≤ (multiSwap a b c).2.2.y ∧
      (multiSwap a b c).2.2.y ≤ (multiSwap a b c).2.1.y := by
  dsimp only [multiSwap, swap01, swap02, swap12]
  split_ifs <;> dsimp only at * <;> omega

theorem multiSwap_perm (a b c : Vtx) :
    [(multiSwap a b c).1, (multiSwap a b c).2.1, (multiSwap a b c).2.2].Perm
      [a, b, c] := by
  have pacb : [a, c, b].Perm [a, b, c] := List.Perm.cons a (List.Perm.swap b c [])
  have pbac : [b, a, c].Perm [a, b, c] := List.Perm.swap a b [c]
  have pbca : [b, c, a].Perm [a, b, c] :=
    (List.Perm.cons b (List.Perm.swap a c [])).trans pbac
  have pcab : [c, a, b].Perm [a, b, c] := (List.Perm.swap a c [b]).trans pacb
  have pcba : [c, b, a].Perm [a, b, c] := (List.Perm.swap b c [a]).trans pbca
  dsimp only [multiSwap, swap01, swap02, swap12]
  split_ifs <;>
    first
      | exact List.Perm.refl _
      | exact pacb
      | exact pbac
      | exact pbca
      | exact pcab
      | exact pcba

theorem scanX_length (n : ℕ) (x y : ℤ) (pu pv dU dV : ℚ) :
    (scanX n x y pu pv dU dV).length = n := by
  induction n generalizing x pu pv with
  | zero => rfl
  | succ m ih => simp [scanX, ih]

theorem scanX_mem (n : ℕ) (x y : ℤ) (pu pv dU dV : ℚ) :
    ∀ i ∈ scanX n x y pu pv dU dV, i.2.1 = y ∧ x ≤ i.1 ∧ i.1 < x + n := by
  induction n generalizing x pu pv with
  | zero => intro i hi; cases hi
  | succ m ih =>
      intro i hi
      rcases List.mem_cons.1 hi with h | h
      · subst h; refine ⟨rfl, le_refl x, ?_⟩; omega
      · obtain ⟨h1, h2, h3⟩ := ih (x + 1) (pu + dU) (pv + dV) i h
        exact ⟨h1, by omega, by omega⟩

theorem scanX_count (n : ℕ) (x y : ℤ) (pu pv dU dV : ℚ) (px py : ℤ) :
    pixCount px py (scanX n x y pu pv dU dV) ≤ 1 := by
  induction n generalizing x pu pv with
  | zero => simp [pixCount, scanX]
  | succ m ih =>
      have hz : x = px →
          pixCount px py (scanX m (x + 1) y (pu + dU) (pv + dV) dU dV) = 0 := by
        intro hx
        rw [pixCount, List.count_eq_zero]
        intro hmem
        obtain ⟨i, hi, hpix⟩ := List.mem_map.1 hmem
        obtain ⟨-, h2, -⟩ := scanX_mem m (x + 1) y (pu + dU) (pv + dV) dU dV i hi
        have e1 : i.1 = px := congrArg Prod.fst hpix
        omega
      have hcons : pixCount px py (scanX (m + 1) x y pu pv dU dV) =
          pixCount px py (scanX m (x + 1) y (pu + dU) (pv + dV) dU dV) +
            if x = px ∧ y = py then 1 else 0 := by
        simp [pixCount, scanX, List.count_cons, Prod.ext_iff]
      by_cases hx : x = px ∧ y = py
      · rw [hcons, hz hx.1, if_pos hx]
      · rw [hcons, if_neg hx]
        have := ih (x + 1) (pu + dU) (pv + dV)
        omega

theorem scanline_length (fdiv : ℚ → ℚ → ℚ) (y : ℤ) (s : Span) :
    (scanline fdiv y s).length = (ftrunc s.edx - ftrunc s.sdx + 1).toNat := by
  rw [scanline, scanX_length]

theorem scanline_mem_row (fdiv : ℚ → ℚ → ℚ) (y : ℤ) (s : Span) :
    ∀ i ∈ scanline fdiv y s, i.2.1 = y := fun i hi =>
  (scanX_mem _ _ _ _ _ _ _ i hi).1

theorem scanline_count (fdiv : ℚ → ℚ → ℚ) (y : ℤ) (s : Span) (px py : ℤ) :
    pixCount px py (scanline fdiv y s) ≤ 1 := by
  rw [scanline]; exact scanX_count _ _ _ _ _ _ _ _ _

theorem pixCount_append (px py : ℤ) (l1 l2 : List Invo) :
    pixCount px py (l1 ++ l2) = pixCount px py l1 + pixCount px py l2 := by
  simp [pixCount, List.count_append]

theorem pixCount_eq_zero_of_row (px py : ℤ) (l : List Invo)
    (h : ∀ i ∈ l, i.2.1 ≠ py) : pixCount px py l = 0 := by
  rw [pixCount, List.count_eq_zero]
  intro hmem
  obtain ⟨i, hi, hpix⟩ := List.mem_map.1 hmem
  exact h i hi (congrArg Prod.snd hpix)

theorem scanHalf_mem_row (fdiv : ℚ → ℚ → ℚ) (n : ℕ) (y : ℤ) (s : Span)
    (l r : Grad) : ∀ i ∈ (scanHalf fdiv n y s l r).1,
      y ≤ i.2.1 ∧ i.2.1 < y + n := by
  induction n generalizing y s with
  | zero => intro i hi; cases hi
  | succ m ih =>
      intro i hi
      rcases List.mem_append.1 hi with h | h
      · have := scanline_mem_row fdiv y s i h
        omega
      · have := ih (y + 1) (advance s l r) i h
        omega

theorem scanHalf_count (fdiv : ℚ → ℚ → ℚ) (n : ℕ) (y : ℤ) (s : Span)
    (l r : Grad) (px py : ℤ) :
    pixCount px py (scanHalf fdiv n y s l r).1 ≤ 1 := by
  induction n generalizing y s with
  | zero => simp [pixCount, scanHalf]
  | succ m ih =>
      have hsplit : pixCount px py (scanHalf fdiv (m + 1) y s l r).1 =
          pixCount px py (scanline fdiv y s) +
            pixCount px py (scanHalf fdiv m (y + 1) (advance s l r) l r).1 := by
        rw [scanHalf]; exact pixCount_append _ _ _ _
      by_cases hy : py = y
      · have hz : pixCount px py (scanHalf fdiv m (y + 1) (advance s l r) l r).1 = 0 := by
          refine pixCount_eq_zero_of_row _ _ _ fun i hi => ?_
          have := scanHalf_mem_row fdiv m (y + 1) (advance s l r) l r i hi
          omega
        have := scanline_count fdiv y s px py
        omega
      · have hz : pixCount px py (scanline fdiv y s) = 0 := by
          refine pixCount_eq_zero_of_row _ _ _ fun i hi => ?_
          rw [scanline_mem_row fdiv y s i hi]
          exact fun h => hy h.symm
        have := ih (y + 1) (advance s l r)
        omega

theorem pdelta_congr (f g : ℚ → ℚ → ℚ) (h : ∀ n d, d ≠ 0 → f n d = g n d)
    (num den : ℚ) : pdelta f num den = pdelta g num den := by
  rw [pdelta, pdelta]
  split_ifs with hd
  · exact h _ _ hd
  · rfl

theorem gdivGuard_congr (f g : ℚ → ℚ → ℚ) (h : ∀ n d, d ≠ 0 → f n d = g n d)
    (gr : Grad) (d : ℤ) : gdivGuard f gr d = gdivGuard g gr d := by
  rw [gdivGuard, gdivGuard]
  split_ifs with hd
  · have hq : (d : ℚ) ≠ 0 := Int.cast_ne_zero.mpr hd
    rw [h _ _ hq, h _ _ hq, h _ _ hq]
  · rfl

theorem grad1_congr (f g : ℚ → ℚ → ℚ) (h : ∀ n d, d ≠ 0 → f n d = g n d)
    (a c : Vtx) : grad1 f a c = grad1 g a c := gdivGuard_congr f g h _ _

theorem grad2_congr (f g : ℚ → ℚ → ℚ) (h : ∀ n d, d ≠ 0 → f n d = g n d)
    (a b : Vtx) : grad2 f a b = grad2 g a b := gdivGuard_congr f g h _ _

theorem grad3_congr (f g : ℚ → ℚ → ℚ) (h : ∀ n d, d ≠ 0 → f n d = g n d)
    (c b : Vtx) : grad3 f c b = grad3 g c b := gdivGuard_congr f g h _ _

theorem scanline_congr (f g : ℚ → ℚ → ℚ) (h : ∀ n d, d ≠ 0 → f n d = g n d)
    (y : ℤ) (s : Span) : scanline f y s = scanline g y s := by
  rw [scanline, scanline, pdelta_congr f g h, pdelta_congr f g h]

theorem scanHalf_congr (f g : ℚ → ℚ → ℚ) (h : ∀ n d, d ≠ 0 → f n d = g n d)
    (n : ℕ) (y : ℤ) (s : Span) (l r : Grad) :
    scanHalf f n y s l r = scanHalf g n y s l r := by
  induction n generalizing y s with
  | zero => rfl
  | succ m ih =>
      simp only [scanHalf]
      rw [scanline_congr f g h, ih (y + 1) (advance s l r)]

theorem bottomSetup_congr (f g : ℚ → ℚ → ℚ) (h : ∀ n d, d ≠ 0 → f n d = g n d)
    (g1 g2 l r : Grad) (s : Span) (b c : Vtx) :
    bottomSetup f g1 g2 l r s b c = bottomSetup g g1 g2 l r s b c := by
  rw [bottomSetup, bottomSetup, grad3_congr f g h]

theorem topPart_congr (f g : ℚ → ℚ → ℚ) (h : ∀ n d, d ≠ 0 → f n d = g n d)
    (a b c : Vtx) : topPart f a b c = topPart g a b c := by
  rw [topPart, topPart, grad1_congr f g h, grad2_congr f g h,
    scanHalf_congr f g h]

theorem botPart_congr (f g : ℚ → ℚ → ℚ) (h : ∀ n d, d ≠ 0 → f n d = g n d)
    (a b c : Vtx) : botPart f a b c = botPart g a b c := by
  rw [botPart, botPart, grad1_congr f g h, grad2_congr f g h,
    bottomSetup_congr f g h, topPart_congr f g h, scanHalf_congr f g h]

theorem rasterizeSortedV_congr (f g : ℚ → ℚ → ℚ)
    (h : ∀ n d, d ≠ 0 → f n d = g n d) (a b c : Vtx) :
    rasterizeSortedV f a b c = rasterizeSortedV g a b c := by
  rw [rasterizeSortedV, rasterizeSortedV, topPart_congr f g h,
    botPart_congr f g h]

theorem multiSwap_perm01 (a b c : Vtx) (hab : a.y ≠ b.y) (hac : a.y ≠ c.y)
    (hbc : b.y ≠ c.y) : multiSwap b a c = multiSwap a b c := by
  dsimp only [multiSwap, swap01, swap02, swap12]
  split_ifs <;> dsimp only at * <;> first | rfl | (exfalso; omega)

theorem multiSwap_perm12 (a b c : Vtx) (hab : a.y ≠ b.y) (hac : a.y ≠ c.y)
    (hbc : b.y ≠ c.y) : multiSwap a c b = multiSwap a b c := by
  dsimp only [multiSwap, swap01, swap02, swap12]
  split_ifs <;> dsimp only at * <;> first | rfl | (exfalso; omega)

theorem multiSwap_perm02 (a b c : Vtx) (hab : a.y ≠ b.y) (hac : a.y ≠ c.y)
    (hbc : b.y ≠ c.y) : multiSwap c b a = multiSwap a b c := by
  dsimp only [multiSwap, swap01, swap02, swap12]
  split_ifs <;> dsimp only at * <;> first | rfl | (exfalso; omega)

theorem multiSwap_rot (a b c : Vtx) (hab : a.y ≠ b.y) (hac : a.y ≠ c.y)
    (hbc : b.y ≠ c.y) : multiSwap b c a = multiSwap a b c := by
  dsimp only [multiSwap, swap01, swap02, swap12]
  split_ifs <;> dsimp only at * <;> first | rfl | (exfalso; omega)

theorem multiSwap_rot2 (a b c : Vtx) (hab : a.y ≠ b.y) (hac : a.y ≠ c.y)
    (hbc : b.y ≠ c.y) : multiSwap c a b = multiSwap a b c := by
  dsimp only [multiSwap, swap01, swap02, swap12]
  split_ifs <;> dsimp only at * <;> first | rfl | (exfalso; omega)

theorem scanline_initSpan (fdiv : ℚ → ℚ → ℚ) (y : ℤ) (a : Vtx) :
    scanline fdiv y (initSpan a) = [(a.x, y, a.u, a.v)] := by
  rw [scanline]
  dsimp only [initSpan]
  simp only [ftrunc_intCast, sub_self, zero_add, Int.toNat_one]
  simp [scanX]

/-! ### Claims -/

/-- C3: after the three pairwise conditional swaps of `multiSwap` (1↔0 if y1<y0,
then 2↔0 if y2<y0, then 2↔1 if y1<y2) the working vertices satisfy
`y0 ≤ y2 ≤ y1`, and the three resulting (x, y, u, v) quadruples are a
permutation of the three input quadruples. -/
theorem multiSwap_sorts_and_permutes (a b c : Vtx) :
    ((multiSwap a b c).1.y ≤ (multiSwap a b c).2.2.y ∧
      (multiSwap a b c).2.2.y ≤ (multiSwap a b c).2.1.y) ∧
    [(multiSwap a b c).1, (multiSwap a b c).2.1, (multiSwap a b c).2.2].Perm
      [a, b, c] :=
  ⟨multiSwap_sorted a b c, multiSwap_perm a b c⟩

/-- C1: the claim that `dxdu2 = (u1-u0)/(y1-y0)` fails on the code: the source
computes `dxdu2 := u1 - v0` (mixing v into the u gradient).  At the sorted
input v0 = (x=0, y=0, u=1, v=0), v1 = (x=0, y=2, u=0, v=0) the gradient computed by the code
has u-component 0 while the specified value is (0-1)/2 = -1/2; the x and v
components always agree with the specification. -/
theorem grad2_u_numerator_mismatch :
    (grad2 qdiv ⟨0, 0, 1, 0⟩ ⟨0, 2, 0, 0⟩ = ⟨0, 0, 0⟩ ∧
      grad2Spec ⟨0, 0, 1, 0⟩ ⟨0, 2, 0, 0⟩ = ⟨0, -(1 / 2), 0⟩ ∧
      grad2 qdiv ⟨0, 0, 1, 0⟩ ⟨0, 2, 0, 0⟩ ≠ grad2Spec ⟨0, 0, 1, 0⟩ ⟨0, 2, 0, 0⟩) ∧
    ∀ p q : Vtx, (grad2 qdiv p q).gx = (grad2Spec p q).gx ∧
      (grad2 qdiv p q).gv = (grad2Spec p q).gv := by
  constructor
  · exact ⟨by decide, by decide, by decide⟩
  · intro p q
    rw [grad2, grad2Spec, gdivGuard, gdivGuard]
    split_ifs <;> exact ⟨rfl, rfl⟩

/-- C5: the default shader truncates `u*maxX` and `v*maxY` toward zero, clamps
each to [0, maxX] and [0, maxY] (for non-negative maxima the if-chain equals
clamping), and writes to the target at exactly the (x, y) of the invocation; in
particular with a 4x4 texture (maxX = maxY = 3), u = 3/2 and v = -1/2 the
sampled texel is (3, 0). -/
theorem defaultShader_clamp_behavior (maxX maxY x y : ℤ) (u v : ℚ)
    (hx : 0 ≤ maxX) (hy : 0 ≤ maxY) :
    defaultShaderWrite maxX maxY x y u v =
      ((x, y), (min maxX (max 0 (ftrunc (u * (maxX : ℚ)))),
        min maxY (max 0 (ftrunc (v * (maxY : ℚ)))))) ∧
    defaultShaderTexel 3 3 (3 / 2) (-(1 / 2)) = (3, 0) := by
  constructor
  · rw [defaultShaderWrite, defaultShaderTexel]
    simp only [Prod.mk.injEq, true_and]
    constructor <;> · dsimp only; split_ifs <;> omega
  · decide

theorem defaultShader_clamp_behavior_witness :
    defaultShaderWrite 3 3 5 7 (3 / 2) (-(1 / 2)) =
      ((5, 7), (min 3 (max 0 (ftrunc ((3 / 2) * (3 : ℚ)))),
        min 3 (max 0 (ftrunc ((-(1 / 2)) * (3 : ℚ)))))) ∧
    defaultShaderTexel 3 3 (3 / 2) (-(1 / 2)) = (3, 0) :=
  defaultShader_clamp_behavior 3 3 5 7 (3 / 2) (-(1 / 2)) (by decide) (by decide)

/-- C4 counterexample: for the call with vertices (0,0), (0,4), (4,2) (already
in sorted order) the classification takes the `else` branch (dxdy1 = 2 is not
< dxdy2 = 0), and the bottom-half setup then leaves the left gradient at its
top-half value (0,0,0) instead of recomputing it from vertex 2 to vertex 1
(which would give (-2,0,0)) — contradicting the claim that the side classified
"left" always has its gradient recomputed. -/
theorem bottomSetup_left_not_recomputed :
    ¬ (grad1 qdiv ⟨0, 0, 0, 0⟩ ⟨4, 2, 0, 0⟩).gx <
        (grad2 qdiv ⟨0, 0, 0, 0⟩ ⟨0, 4, 0, 0⟩).gx ∧
    (bottomSetup qdiv (grad1 qdiv ⟨0, 0, 0, 0⟩ ⟨4, 2, 0, 0⟩)
        (grad2 qdiv ⟨0, 0, 0, 0⟩ ⟨0, 4, 0, 0⟩)
        (classify (grad1 qdiv ⟨0, 0, 0, 0⟩ ⟨4, 2, 0, 0⟩)
          (grad2 qdiv ⟨0, 0, 0, 0⟩ ⟨0, 4, 0, 0⟩)).1
        (classify (grad1 qdiv ⟨0, 0, 0, 0⟩ ⟨4, 2, 0, 0⟩)
          (grad2 qdiv ⟨0, 0, 0, 0⟩ ⟨0, 4, 0, 0⟩)).2
        (topPart qdiv ⟨0, 0, 0, 0⟩ ⟨0, 4, 0, 0⟩ ⟨4, 2, 0, 0⟩).2
        ⟨0, 4, 0, 0⟩ ⟨4, 2, 0, 0⟩).1 =
      (classify (grad1 qdiv ⟨0, 0, 0, 0⟩ ⟨4, 2, 0, 0⟩)
        (grad2 qdiv ⟨0, 0, 0, 0⟩ ⟨0, 4, 0, 0⟩)).1 ∧
    (bottomSetup qdiv (grad1 qdiv ⟨0, 0, 0, 0⟩ ⟨4, 2, 0, 0⟩)
        (grad2 qdiv ⟨0, 0, 0, 0⟩ ⟨0, 4, 0, 0⟩)
        (classify (grad1 qdiv ⟨0, 0, 0, 0⟩ ⟨4, 2, 0, 0⟩)
          (grad2 qdiv ⟨0, 0, 0, 0⟩ ⟨0, 4, 0, 0⟩)).1
        (classify (grad1 qdiv ⟨0, 0, 0, 0⟩ ⟨4, 2, 0, 0⟩)
          (grad2 qdiv ⟨0, 0, 0, 0⟩ ⟨0, 4, 0, 0⟩)).2
        (topPart qdiv ⟨0, 0, 0, 0⟩ ⟨0, 4, 0, 0⟩ ⟨4, 2, 0, 0⟩).2
        ⟨0, 4, 0, 0⟩ ⟨4, 2, 0, 0⟩).1 ≠
      grad3 qdiv ⟨4, 2, 0, 0⟩ ⟨0, 4, 0, 0⟩ := by
  refine ⟨by decide, by decide, by decide⟩

/-- C4 amended: in the bottom-half setup exactly one gradient slot is
replaced by the vertex-2-to-vertex-1 gradient — the left slot when
dxdy1 < dxdy2, otherwise the right slot — and it is that same replaced
side whose running span value is reset to the (x, u, v) of vertex 2; the other
side retains both its top-half gradient and its accumulated running
value. -/
theorem bottomSetup_replaced_side_reset (fdiv : ℚ → ℚ → ℚ) (g1 g2 l r : Grad)
    (s : Span) (b c : Vtx) :
    (g1.gx < g2.gx ∧
      bottomSetup fdiv g1 g2 l r s b c =
        (grad3 fdiv c b, r, ⟨(c.x : ℚ), c.u, c.v, s.edx, s.edu, s.edv⟩)) ∨
    (¬ g1.gx < g2.gx ∧
      bottomSetup fdiv g1 g2 l r s b c =
        (l, grad3 fdiv c b, ⟨s.sdx, s.sdu, s.sdv, (c.x : ℚ), c.u, c.v⟩)) := by
  by_cases h : g1.gx < g2.gx
  · exact Or.inl ⟨h, by rw [bottomSetup, if_pos h]⟩
  · exact Or.inr ⟨h, by rw [bottomSetup, if_neg h]⟩

/-- C7 counterexample: the same triangle (0,0), (2,0), (0,2) fed in two vertex
orders produces different invocation sets: pixel (0,2) is covered when the
vertices are passed as ((0,0), (2,0), (0,2)) but not when the first two are
exchanged — the tie on y = 0 makes the sort order-dependent. -/
theorem rasterize_permutation_dependent :
    ((0 : ℤ), (2 : ℤ), (0 : ℚ), (0 : ℚ)) ∈
      rasterizeV ⟨0, 0, 0, 0⟩ ⟨2, 0, 0, 0⟩ ⟨0, 2, 0, 0⟩ ∧
    ((0 : ℤ), (2 : ℤ), (0 : ℚ), (0 : ℚ)) ∉
      rasterizeV ⟨2, 0, 0, 0⟩ ⟨0, 0, 0, 0⟩ ⟨0, 2, 0, 0⟩ := by
  refine ⟨by decide, by decide⟩

/-- C7 amended: when the y values of the three vertices are pairwise distinct, all
6 orderings of the arguments produce the identical invocation list (hence the
same set of (pixel, u, v) triples, exactly, with no tolerance needed). -/
theorem rasterize_perm_invariant (a b c : Vtx) (hab : a.y ≠ b.y)
    (hac : a.y ≠ c.y) (hbc : b.y ≠ c.y) :
    rasterizeV b a c = rasterizeV a b c ∧
    rasterizeV a c b = rasterizeV a b c ∧
    rasterizeV c b a = rasterizeV a b c ∧
    rasterizeV b c a = rasterizeV a b c ∧
    rasterizeV c a b = rasterizeV a b c := by
  refine ⟨?_, ?_, ?_, ?_, ?_⟩
  · rw [rasterizeV, rasterizeV, rasterizeGenV, rasterizeGenV,
      multiSwap_perm01 a b c hab hac hbc]
  · rw [rasterizeV, rasterizeV, rasterizeGenV, rasterizeGenV,
      multiSwap_perm12 a b c hab hac hbc]
  · rw [rasterizeV, rasterizeV, rasterizeGenV, rasterizeGenV,
      multiSwap_perm02 a b c hab hac hbc]
  · rw [rasterizeV, rasterizeV, rasterizeGenV, rasterizeGenV,
      multiSwap_rot a b c hab hac hbc]
  · rw [rasterizeV, rasterizeV, rasterizeGenV, rasterizeGenV,
      multiSwap_rot2 a b c hab hac hbc]

theorem rasterize_perm_invariant_witness :
    rasterizeV ⟨1, 2, 0, 0⟩ ⟨0, 0, 0, 0⟩ ⟨3, 1, 0, 0⟩ =
      rasterizeV ⟨0, 0, 0, 0⟩ ⟨1, 2, 0, 0⟩ ⟨3, 1, 0, 0⟩ ∧
    rasterizeV ⟨0, 0, 0, 0⟩ ⟨3, 1, 0, 0⟩ ⟨1, 2, 0, 0⟩ =
      rasterizeV ⟨0, 0, 0, 0⟩ ⟨1, 2, 0, 0⟩ ⟨3, 1, 0, 0⟩ ∧
    rasterizeV ⟨3, 1, 0, 0⟩ ⟨1, 2, 0, 0⟩ ⟨0, 0, 0, 0⟩ =
      rasterizeV ⟨0, 0, 0, 0⟩ ⟨1, 2, 0, 0⟩ ⟨3, 1, 0, 0⟩ ∧
    rasterizeV ⟨1, 2, 0, 0⟩ ⟨3, 1, 0, 0⟩ ⟨0, 0, 0, 0⟩ =
      rasterizeV ⟨0, 0, 0, 0⟩ ⟨1, 2, 0, 0⟩ ⟨3, 1, 0, 0⟩ ∧
    rasterizeV ⟨3, 1, 0, 0⟩ ⟨0, 0, 0, 0⟩ ⟨1, 2, 0, 0⟩ =
      rasterizeV ⟨0, 0, 0, 0⟩ ⟨1, 2, 0, 0⟩ ⟨3, 1, 0, 0⟩ :=
  rasterize_perm_invariant ⟨0, 0, 0, 0⟩ ⟨1, 2, 0, 0⟩ ⟨3, 1, 0, 0⟩
    (by decide) (by decide) (by decide)

/-- C8: every division in `Rasterize` happens only under a guard that its
divisor is non-zero: the rasterizer output is unchanged when the division
function is replaced by any function agreeing with it on non-zero divisors,
and when a guard fails the raw un-divided numerator is kept (the gradient
triple and the per-pixel delta are left as their numerators when the divisor
is 0). -/
theorem rasterize_divisions_guarded (f g : ℚ → ℚ → ℚ)
    (h : ∀ n d, d ≠ 0 → f n d = g n d) (a b c : Vtx) :
    rasterizeGenV f a b c = rasterizeGenV g a b c ∧
    (∀ gr : Grad, gdivGuard f gr 0 = gr) ∧
    (∀ num : ℚ, pdelta f num 0 = num) := by
  refine ⟨?_, ?_, ?_⟩
  · rw [rasterizeGenV, rasterizeGenV, rasterizeSortedV_congr f g h]
  · intro gr; rw [gdivGuard]; simp
  · intro num; rw [pdelta]; simp

theorem rasterize_divisions_guarded_witness :
    rasterizeGenV qdiv ⟨0, 0, 0, 0⟩ ⟨0, 4, 1, 0⟩ ⟨4, 2, 0, 1⟩ =
      rasterizeGenV (fun n d => if d = 0 then 37 else qdiv n d)
        ⟨0, 0, 0, 0⟩ ⟨0, 4, 1, 0⟩ ⟨4, 2, 0, 1⟩ ∧
    (∀ gr : Grad, gdivGuard qdiv gr 0 = gr) ∧
    (∀ num : ℚ, pdelta qdiv num 0 = num) :=
  rasterize_divisions_guarded qdiv (fun n d => if d = 0 then 37 else qdiv n d)
    (fun n d hd => by simp [hd]) ⟨0, 0, 0, 0⟩ ⟨0, 4, 1, 0⟩ ⟨4, 2, 0, 1⟩

/-- C6 counterexample: feeding vertices (0,0), (0,1), (1,0) (already in sorted
order, with a flat top: y2 - y0 = 0) still produces a shader invocation from
the top-half loop — `for y := y0; y <= y2; y++` runs once, not zero times,
when y2 = y0. -/
theorem zero_height_half_still_invokes :
    (multiSwap ⟨0, 0, 0, 0⟩ ⟨0, 1, 0, 0⟩ ⟨1, 0, 0, 0⟩).2.2.y -
      (multiSwap ⟨0, 0, 0, 0⟩ ⟨0, 1, 0, 0⟩ ⟨1, 0, 0, 0⟩).1.y = 0 ∧
    (topPart qdiv (multiSwap ⟨0, 0, 0, 0⟩ ⟨0, 1, 0, 0⟩ ⟨1, 0, 0, 0⟩).1
      (multiSwap ⟨0, 0, 0, 0⟩ ⟨0, 1, 0, 0⟩ ⟨1, 0, 0, 0⟩).2.1
      (multiSwap ⟨0, 0, 0, 0⟩ ⟨0, 1, 0, 0⟩ ⟨1, 0, 0, 0⟩).2.2).1 ≠ [] := by
  refine ⟨by decide, by decide⟩

/-- C6 amended: a zero-height half executes exactly one scanline iteration
rather than zero: with y2 = y0 the top-half loop emits exactly the single
invocation at the (x, y, u, v) of vertex 0, and with y1 = y2 the bottom-half loop
emits invocations only at the single row y = y2. -/
theorem zero_height_half_one_iteration (fdiv : ℚ → ℚ → ℚ) (a b c : Vtx) :
    (c.y = a.y → (topPart fdiv a b c).1 = [(a.x, a.y, a.u, a.v)]) ∧
    (b.y = c.y → ∀ i ∈ botPart fdiv a b c, i.2.1 = c.y) := by
  constructor
  · intro h
    rw [topPart, h, sub_self, zero_add, Int.toNat_one]
    simp only [scanHalf, scanline_initSpan]
    simp
  · intro h i hi
    rw [botPart, h, sub_self, zero_add, Int.toNat_one] at hi
    have := scanHalf_mem_row fdiv 1 c.y _ _ _ i hi
    omega

theorem zero_height_half_one_iteration_witness :
    (topPart qdiv ⟨0, 0, 0, 0⟩ ⟨1, 0, 0, 0⟩ ⟨2, 0, 0, 0⟩).1 =
      [((0 : ℤ), (0 : ℤ), (0 : ℚ), (0 : ℚ))] ∧
    ∀ i ∈ botPart qdiv ⟨0, 0, 0, 0⟩ ⟨1, 0, 0, 0⟩ ⟨2, 0, 0, 0⟩,
      i.2.1 = (0 : ℤ) :=
  ⟨(zero_height_half_one_iteration qdiv ⟨0, 0, 0, 0⟩ ⟨1, 0, 0, 0⟩
      ⟨2, 0, 0, 0⟩).1 rfl,
   (zero_height_half_one_iteration qdiv ⟨0, 0, 0, 0⟩ ⟨1, 0, 0, 0⟩
      ⟨2, 0, 0, 0⟩).2 rfl⟩

/-- C10: every call invokes the shader at least once: the first iteration of
the top-half loop runs with span start equal to span end, so the first
invocation of the call is exactly at the sorted top vertex
(x0, y0, u0, v0). -/
theorem rasterize_first_invocation (a b c : Vtx) :
    rasterizeV a b c ≠ [] ∧
    (rasterizeV a b c).head? = some ((multiSwap a b c).1.x,
      (multiSwap a b c).1.y, (multiSwap a b c).1.u, (multiSwap a b c).1.v) := by
  have hs := (multiSwap_sorted a b c).1
  rw [rasterizeV, rasterizeGenV, rasterizeSortedV, topPart]
  obtain ⟨m, hm⟩ :
      ∃ m, ((multiSwap a b c).2.2.y - (multiSwap a b c).1.y + 1).toNat = m + 1 :=
    ⟨((multiSwap a b c).2.2.y - (multiSwap a b c).1.y).toNat, by omega⟩
  rw [hm]
  simp only [scanHalf, scanline_initSpan, List.singleton_append,
    List.cons_append]
  exact ⟨List.cons_ne_nil _ _, rfl⟩

theorem exists_inv_of_pixCount_pos (px py : ℤ) (l : List Invo)
    (h : 0 < pixCount px py l) : ∃ i ∈ l, i.2.1 = py := by
  rw [pixCount] at h
  obtain ⟨i, hi, hpix⟩ := List.mem_map.1 (List.count_pos_iff.1 h)
  exact ⟨i, hi, congrArg Prod.snd hpix⟩

/-- C2 amended: within a single call no pixel receives more than two shader
invocations, and a pixel invoked more than once necessarily lies on the middle
scanline y = y2 (the only row emitted by both the top-half and the bottom-half
loop; within one half no pixel repeats). -/
theorem rasterize_pixel_at_most_twice (a b c : Vtx) (px py : ℤ) :
    pixCount px py (rasterizeV a b c) ≤ 2 ∧
    (2 ≤ pixCount px py (rasterizeV a b c) →
      py = (multiSwap a b c).2.2.y) := by
  obtain ⟨hs1, hs2⟩ := multiSwap_sorted a b c
  have hsplit : pixCount px py (rasterizeV a b c) =
      pixCount px py (topPart qdiv (multiSwap a b c).1 (multiSwap a b c).2.1
        (multiSwap a b c).2.2).1 +
      pixCount px py (botPart qdiv (multiSwap a b c).1 (multiSwap a b c).2.1
        (multiSwap a b c).2.2) := by
    rw [rasterizeV, rasterizeGenV, rasterizeSortedV, pixCount_append]
  have htop : pixCount px py (topPart qdiv (multiSwap a b c).1
      (multiSwap a b c).2.1 (multiSwap a b c).2.2).1 ≤ 1 := by
    rw [topPart]; exact scanHalf_count _ _ _ _ _ _ _ _
  have hbot : pixCount px py (botPart qdiv (multiSwap a b c).1
      (multiSwap a b c).2.1 (multiSwap a b c).2.2) ≤ 1 := by
    rw [botPart]; exact scanHalf_count _ _ _ _ _ _ _ _
  constructor
  · omega
  · intro h2
    have ht1 : 0 < pixCount px py (topPart qdiv (multiSwap a b c).1
        (multiSwap a b c).2.1 (multiSwap a b c).2.2).1 := by omega
    have hb1 : 0 < pixCount px py (botPart qdiv (multiSwap a b c).1
        (multiSwap a b c).2.1 (multiSwap a b c).2.2) := by omega
    obtain ⟨i, hi, hrow⟩ := exists_inv_of_pixCount_pos px py _ ht1
    obtain ⟨j, hj, hrowj⟩ := exists_inv_of_pixCount_pos px py _ hb1
    rw [topPart] at hi
    rw [botPart] at hj
    have h1 := scanHalf_mem_row _ _ _ _ _ _ i hi
    have h2b := scanHalf_mem_row _ _ _ _ _ _ j hj
    omega

/-- C2 counterexample: the strictly-inside exactly-once guarantee fails in
both directions on positive-area integer triangles.  In triangle
(0,0), (0,4), (4,2) the pixel (1,2) lies strictly inside yet receives two
shader invocations in a single call (its row y = 2 is the middle scanline,
scanned by both half loops).  In triangle (12,0), (0,6), (3,3) the pixel
(3,4) lies strictly inside yet receives no invocation at all (a coverage
gap), while the strictly interior pixel (5,3) on the middle row y2 = 3 is
invoked only once (so middle-row interior pixels are not always doubled
either). -/
theorem rasterize_coverage_violations :
    (strictlyInside (0, 0) (0, 4) (4, 2) (1, 2) ∧
      pixCount 1 2 (rasterizeV ⟨0, 0, 0, 0⟩ ⟨0, 4, 0, 0⟩ ⟨4, 2, 0, 0⟩) = 2) ∧
    (strictlyInside (12, 0) (0, 6) (3, 3) (3, 4) ∧
      pixCount 3 4 (rasterizeV ⟨12, 0, 0, 0⟩ ⟨0, 6, 0, 0⟩ ⟨3, 3, 0, 0⟩) = 0) ∧
    (strictlyInside (12, 0) (0, 6) (3, 3) (5, 3) ∧
      (multiSwap ⟨12, 0, 0, 0⟩ ⟨0, 6, 0, 0⟩ ⟨3, 3, 0, 0⟩).2.2.y = 3 ∧
      pixCount 5 3 (rasterizeV ⟨12, 0, 0, 0⟩ ⟨0, 6, 0, 0⟩ ⟨3, 3, 0, 0⟩) = 1) := by
  refine ⟨⟨by decide, by decide⟩, ⟨by decide, by decide⟩,
    by decide, by decide, by decide⟩

theorem rasterize_pixel_at_most_twice_witness :
    pixCount 1 2 (rasterizeV ⟨0, 0, 0, 0⟩ ⟨0, 4, 0, 0⟩ ⟨4, 2, 0, 0⟩) ≤ 2 ∧
    (2 : ℤ) = (multiSwap ⟨0, 0, 0, 0⟩ ⟨0, 4, 0, 0⟩ ⟨4, 2, 0, 0⟩).2.2.y :=
  ⟨(rasterize_pixel_at_most_twice ⟨0, 0, 0, 0⟩ ⟨0, 4, 0, 0⟩ ⟨4, 2, 0, 0⟩ 1 2).1,
   (rasterize_pixel_at_most_twice ⟨0, 0, 0, 0⟩ ⟨0, 4, 0, 0⟩ ⟨4, 2, 0, 0⟩ 1 2).2
     (by decide)⟩

/-- C9: the scan loops are bounded by the input integers: the row of every
invocation lies between the sorted y0 and y1, and each inner x loop emits exactly
`int(edx) - int(sdx) + 1` invocations (zero when the span is inverted),
as determined by its span endpoints. -/
theorem rasterize_loops_bounded (a b c : Vtx) :
    (∀ i ∈ rasterizeV a b c, (multiSwap a b c).1.y ≤ i.2.1 ∧
      i.2.1 ≤ (multiSwap a b c).2.1.y) ∧
    (∀ y s, (scanline qdiv y s).length =
      (ftrunc s.edx - ftrunc s.sdx + 1).toNat) := by
  obtain ⟨hs1, hs2⟩ := multiSwap_sorted a b c
  constructor
  · intro i hi
    rw [rasterizeV, rasterizeGenV, rasterizeSortedV] at hi
    rcases List.mem_append.1 hi with h | h
    · rw [topPart] at h
      have := scanHalf_mem_row _ _ _ _ _ _ i h
      omega
    · rw [botPart] at h
      have := scanHalf_mem_row _ _ _ _ _ _ i h
      omega
  · intro y s
    exact scanline_length qdiv y s

theorem rasterize_loops_bounded_witness :
    ((multiSwap ⟨0, 0, 0, 0⟩ ⟨0, 4, 0, 0⟩ ⟨4, 2, 0, 0⟩).1.y ≤ (2 : ℤ) ∧
      (2 : ℤ) ≤ (multiSwap ⟨0, 0, 0, 0⟩ ⟨0, 4, 0, 0⟩ ⟨4, 2, 0, 0⟩).2.1.y) ∧
    (scanline qdiv 0 (initSpan ⟨5, 0, 0, 0⟩)).length =
      (ftrunc (initSpan ⟨5, 0, 0, 0⟩).edx -
        ftrunc (initSpan ⟨5, 0, 0, 0⟩).sdx + 1).toNat :=
  ⟨(rasterize_loops_bounded ⟨0, 0, 0, 0⟩ ⟨0, 4, 0, 0⟩ ⟨4, 2, 0, 0⟩).1
      ((1 : ℤ), (2 : ℤ), (0 : ℚ), (0 : ℚ)) (by decide),
   (rasterize_loops_bounded ⟨0, 0, 0, 0⟩ ⟨0, 4, 0, 0⟩ ⟨4, 2, 0, 0⟩).2 0
      (initSpan ⟨5, 0, 0, 0⟩)⟩
